import Mathlib

/-!
Verification of the session-lifecycle and error-handling layer of the
HeyGen avatar-streaming client (`src/core/session_manager.py`,
`src/utils/error_handlers.py`, `src/app.py`, `get_valid_voices_py.py`).

The Python dictionaries used by `SessionManager` are embedded as
association lists over `String` keys (`Dict V` below), with the usual
dict operations: lookup (`Dict.get`, Python `d.get(k)`), assignment
(`Dict.set`, Python `d[k] = v`: replaces the value of an existing key in
place, otherwise appends), removal (`Dict.pop`, Python `d.pop(k, None)`),
and merge (`Dict.updateWith`, Python `d.update(other)`).  Timestamps
(`time.time()`) are embedded as integers supplied explicitly to each
operation; the several `time.time()` reads inside one Python call are
collapsed to the single instant `now` at which the call runs.
-/

/-- Association-list embedding of a Python `Dict[str, V]`. -/
abbrev Dict (V : Type) : Type := List (String × V)

/-- Python `d.get(k)` / `d[k]`: value of the first entry with key `k`. -/
def Dict.get {V : Type} : Dict V → String → Option V
  | [], _ => none
  | p :: m, k => if p.1 = k then some p.2 else Dict.get m k

/-- Python `d[k] = v`: replace the value of the first entry with key `k`,
or append a fresh entry if `k` is absent. -/
def Dict.set {V : Type} : Dict V → String → V → Dict V
  | [], k, v => [(k, v)]
  | p :: m, k, v => if p.1 = k then (k, v) :: m else p :: Dict.set m k v

/-- Python `d.pop(k, None)`: remove the entries with key `k`
(a well-formed dict holds at most one). -/
def Dict.pop {V : Type} : Dict V → String → Dict V
  | [], _ => []
  | p :: m, k => if p.1 = k then Dict.pop m k else p :: Dict.pop m k

/-- Python `d.update(other)`: assign every entry of `other` in turn. -/
def Dict.updateWith {V : Type} (m other : Dict V) : Dict V :=
  other.foldl (fun acc p => Dict.set acc p.1 p.2) m

/-- The key list of a dict. -/
def Dict.keys {V : Type} (m : Dict V) : List String := m.map Prod.fst

/-- The value list of a dict (Python `d.values()`). -/
def Dict.values {V : Type} (m : Dict V) : List V := m.map Prod.snd

/-!
## Settings (`src/config/settings.py`)

Only the fields the session-manager claims depend on are embedded, with
their declared defaults (`session_timeout = 120`,
`max_concurrent_sessions = 3`).
-/

/-- Embeds `Settings` (`src/config/settings.py`, lines 31-33): the session
configuration fields used by `SessionManager`. -/
structure Settings where
  session_timeout : Int := 120
  max_concurrent_sessions : Nat := 3
deriving DecidableEq

/-- The settings with every field at its declared default. -/
def defaultSettings : Settings := {}

/-!
## SessionManager (`src/core/session_manager.py`)

The Redis branch is disabled (`redis_client is None`, the in-memory
storage path that every operation falls back to); the state is the two
dicts `sessions` and `session_timeouts`.
-/

/-- The `session_info` record built by `SessionManager.create_session`
(lines 40-47).  `data` embeds the `session_data: Dict[str, Any]`
argument with string values. -/
structure Session where
  id : String
  user_id : String
  created_at : Int
  last_activity : Int
  data : Dict String
  active : Bool
deriving DecidableEq

/-- The in-memory state of `SessionManager` (lines 24-25):
`self.sessions` and `self.session_timeouts`. -/
structure SessionManager where
  sessions : Dict Session
  session_timeouts : Dict Int
deriving DecidableEq

/-- Embeds `SessionManager.__init__` with Redis unavailable: both dicts empty. -/
def SessionManager.init : SessionManager := ⟨[], []⟩

/-- Embeds `SessionManager.create_session(user_id, session_data)` at instant
`now` (lines 36-70): build `session_id = f"session_{user_id}_{int(time.time())}"`
and the `session_info` record, store it in `sessions`, and map the id to
`time.time() + settings.session_timeout` in `session_timeouts`.
Returns the new state and the returned `session_id`. -/
def SessionManager.create_session (st : Settings) (mgr : SessionManager)
    (user_id : String) (session_data : Dict String) (now : Int) :
    SessionManager × String :=
  let session_id := "session_" ++ user_id ++ "_" ++ toString now
  let session_info : Session :=
    { id := session_id, user_id := user_id, created_at := now,
      last_activity := now, data := session_data, active := true }
  ({ sessions := Dict.set mgr.sessions session_id session_info,
     session_timeouts :=
       Dict.set mgr.session_timeouts session_id (now + st.session_timeout) },
   session_id)

/-- Embeds `SessionManager.get_session(session_id)` (lines 72-85, in-memory
path): `self.sessions.get(session_id)`. -/
def SessionManager.get_session (mgr : SessionManager) (session_id : String) :
    Option Session :=
  Dict.get mgr.sessions session_id

/-- Embeds `SessionManager.update_session(session_id, updates)` at instant `now`
(lines 87-112): if the session is absent return `False` and change
nothing; otherwise refresh `last_activity`, merge `updates` into the
session's `data` dict, store the record back, and return `True`. -/
def SessionManager.update_session (mgr : SessionManager)
    (session_id : String) (updates : Dict String) (now : Int) :
    SessionManager × Bool :=
  match Dict.get mgr.sessions session_id with
  | none => (mgr, false)
  | some s =>
    let s' : Session :=
      { s with last_activity := now, data := Dict.updateWith s.data updates }
    ({ mgr with sessions := Dict.set mgr.sessions session_id s' }, true)

/-- Embeds `SessionManager.delete_session(session_id)` (lines 114-131):
`pop` the id from both dicts and return `True` unconditionally. -/
def SessionManager.delete_session (mgr : SessionManager)
    (session_id : String) : SessionManager × Bool :=
  ({ sessions := Dict.pop mgr.sessions session_id,
     session_timeouts := Dict.pop mgr.session_timeouts session_id }, true)

/-- Embeds `SessionManager.cleanup_expired_sessions()` at instant `now`
(lines 133-150): collect the ids whose recorded timeout satisfies
`current_time > timeout`, delete each of them, and return how many were
collected. -/
def SessionManager.cleanup_expired_sessions (mgr : SessionManager)
    (now : Int) : SessionManager × Nat :=
  let expired_sessions :=
    (mgr.session_timeouts.filter (fun p => now > p.2)).map Prod.fst
  let mgr' := expired_sessions.foldl
    (fun m sid => (SessionManager.delete_session m sid).1) mgr
  (mgr', expired_sessions.length)

/-- Python truthiness of the `Optional[str]` argument `user_id`:
falsy exactly when it is `None` or the empty string. -/
def optStrFalsy : Option String → Bool
  | none => true
  | some s => s = ""

/-- The comparison `session.get("user_id") == user_id` of line 166/176
(`str == None` is `False` in Python). -/
def userIdMatches (user_id : Option String) (s : Session) : Bool :=
  match user_id with
  | none => false
  | some u => s.user_id = u

/-- The per-session test of `get_active_session_count` (line 176):
`session.get("active") and (not user_id or session.get("user_id") == user_id)`. -/
def sessionCounted (user_id : Option String) (s : Session) : Bool :=
  s.active && (optStrFalsy user_id || userIdMatches user_id s)

/-- Embeds `SessionManager.get_active_session_count(user_id)` (lines 152-179,
in-memory path): count the stored sessions passing `sessionCounted`. -/
def SessionManager.get_active_session_count (mgr : SessionManager)
    (user_id : Option String) : Nat :=
  (Dict.values mgr.sessions).countP (sessionCounted user_id)

/-- Embeds `SessionManager.can_create_session(user_id)` (lines 181-184):
`get_active_session_count(user_id) < settings.max_concurrent_sessions`. -/
def SessionManager.can_create_session (st : Settings) (mgr : SessionManager)
    (user_id : String) : Bool :=
  mgr.get_active_session_count (some user_id) < st.max_concurrent_sessions

/-!
## CircuitBreaker (`src/utils/error_handlers.py`, lines 30-76)

`CircuitBreaker.call(func, *args)` is embedded as a step function on the
breaker state: the wrapped call is abstracted by the boolean `funcOk`
(whether `func(*args, **kwargs)` returns normally), and the outcome of
`call` is reported as a `CallResult`.
-/

/-- The three values of `self.state` (line 38). -/
inductive CBState where
  | CLOSED
  | OPEN
  | HALF_OPEN
deriving DecidableEq

/-- The fields of `CircuitBreaker` (lines 33-38).  `last_failure_time`
starts as `None`, hence the `Option`. -/
structure CircuitBreaker where
  failure_threshold : Nat
  recovery_timeout : Int
  failure_count : Nat
  last_failure_time : Option Int
  state : CBState
deriving DecidableEq

/-- Embeds `CircuitBreaker.__init__(failure_threshold, recovery_timeout)`. -/
def CircuitBreaker.init (failure_threshold : Nat) (recovery_timeout : Int) :
    CircuitBreaker :=
  { failure_threshold := failure_threshold, recovery_timeout := recovery_timeout,
    failure_count := 0, last_failure_time := none, state := .CLOSED }

/-- How `CircuitBreaker.call` terminates. -/
inductive CallResult where
  /-- `func` ran and its result was returned. -/
  | ok
  /-- `raise CircuitBreakerError(...)` on line 47; `func` was not run. -/
  | raisedOpen
  /-- `func` ran, raised, and its exception was re-raised (line 56). -/
  | raisedFunc
deriving DecidableEq

/-- Embeds `CircuitBreaker.record_failure()` at instant `now` (lines 58-69):
increment `failure_count`, stamp `last_failure_time`, and open the
circuit once `failure_count >= failure_threshold`. -/
def CircuitBreaker.record_failure (cb : CircuitBreaker) (now : Int) :
    CircuitBreaker :=
  let cb' := { cb with failure_count := cb.failure_count + 1,
                       last_failure_time := some now }
  if cb'.failure_threshold ≤ cb'.failure_count then
    { cb' with state := .OPEN }
  else cb'

/-- Embeds `CircuitBreaker.reset()` (lines 71-76). -/
def CircuitBreaker.reset (cb : CircuitBreaker) : CircuitBreaker :=
  { cb with failure_count := 0, last_failure_time := none, state := .CLOSED }

/-- Lines 42-47 of `CircuitBreaker.call`: when the state is `OPEN`,
either move to `HALF_OPEN` (strictly more than `recovery_timeout`
seconds after the last failure) or signal that `CircuitBreakerError` is
to be raised (the returned `Bool`).  A state `OPEN` with no recorded
failure time cannot arise from `init` (Python would fault on
`time.time() - None`); it is mapped to the raising branch. -/
def CircuitBreaker.openCheck (cb : CircuitBreaker) (now : Int) :
    CircuitBreaker × Bool :=
  if cb.state = .OPEN then
    match cb.last_failure_time with
    | some t =>
      if now - t > cb.recovery_timeout then
        ({ cb with state := .HALF_OPEN }, false)
      else (cb, true)
    | none => (cb, true)
  else (cb, false)

/-- Embeds `CircuitBreaker.call(func, *args, **kwargs)` at instant `now`
(lines 40-56): run the `OPEN` pre-check; if it does not raise, run
`func` — on success reset when in `HALF_OPEN` and return the result, on
failure record the failure and re-raise. -/
def CircuitBreaker.call (cb : CircuitBreaker) (now : Int) (funcOk : Bool) :
    CircuitBreaker × CallResult :=
  let pre := cb.openCheck now
  if pre.2 then (pre.1, .raisedOpen)
  else if funcOk then
    (if pre.1.state = .HALF_OPEN then pre.1.reset else pre.1, .ok)
  else
    (pre.1.record_failure now, .raisedFunc)

/-!
## handle_api_errors (`src/utils/error_handlers.py`, lines 81-112)

The decorator is `tenacity.retry` (configured with
`retry_if_exception_type((httpx.HTTPError, HeyGenAPIError))`,
`stop_after_attempt(3)`, `wait_exponential(multiplier=1, min=4, max=10)`
and `reraise=True`) applied to a wrapper that translates `httpx`
exceptions into `HeyGenAPIError`.  Exceptions are embedded as `PyExc`;
the wrapped coroutine is abstracted as a map from the attempt number
(1-based) to its outcome.
-/

/-- The exceptions that can cross `handle_api_errors`.
`httpStatusError`/`requestError` are the two `httpx.HTTPError`
subclasses the wrapper catches; `httpOtherError` stands for any other
`httpx.HTTPError`.  `heygenAPIError (some code) limit` carries the
status code and whether it is the `SessionLimitError` subclass. -/
inductive PyExc where
  | httpStatusError (status : Nat) (limitMsg : Bool)
  | requestError
  | httpOtherError
  | heygenAPIError (status : Option Nat) (isSessionLimit : Bool)
  | circuitBreakerError
  | otherError
deriving DecidableEq

/-- Embeds `retry_if_exception_type((httpx.HTTPError, HeyGenAPIError))`:
which raised exceptions tenacity retries. -/
def isRetryableExc : PyExc → Bool
  | .httpStatusError _ _ => true
  | .requestError => true
  | .httpOtherError => true
  | .heygenAPIError _ _ => true
  | .circuitBreakerError => false
  | .otherError => false

/-- The `try/except` body of `wrapper` (lines 92-110): translate
`httpx.HTTPStatusError` by status code (429 → rate-limit
`HeyGenAPIError`; 400 with a "concurrent session limit" body →
`SessionLimitError`; other codes → `HeyGenAPIError` with that code) and
`httpx.RequestError` → network `HeyGenAPIError`; everything else
propagates unchanged. -/
def wrapperBody {α : Type} : Except PyExc α → Except PyExc α
  | .ok v => .ok v
  | .error (.httpStatusError 429 _) => .error (.heygenAPIError (some 429) false)
  | .error (.httpStatusError 400 limitMsg) =>
    if limitMsg then .error (.heygenAPIError (some 400) true)
    else .error (.heygenAPIError (some 400) false)
  | .error (.httpStatusError s _) => .error (.heygenAPIError (some s) false)
  | .error .requestError => .error (.heygenAPIError none false)
  | .error e => .error e

/-- Embeds `tenacity.retry` with `reraise=True`: run `body` at attempt number
`attempt`; on a retryable exception and remaining retry budget `fuel`,
try again, otherwise re-raise the last exception.  Returns the result
together with the number of the attempt it was produced on. -/
def tenacityRetry {α : Type} (retryable : PyExc → Bool)
    (body : Nat → Except PyExc α) (attempt : Nat) :
    Nat → Except PyExc α × Nat
  | 0 => (body attempt, attempt)
  | fuel + 1 =>
    match body attempt with
    | .ok v => (.ok v, attempt)
    | .error e =>
      if retryable e then tenacityRetry retryable body (attempt + 1) fuel
      else (.error e, attempt)

/-- Embeds `handle_api_errors(func)` applied to a call whose attempt outcomes
are `f`: `stop_after_attempt(3)` allows attempts 1, 2 and 3, i.e. a
retry budget of 2 after the first attempt. -/
def handle_api_errors {α : Type} (f : Nat → Except PyExc α) :
    Except PyExc α × Nat :=
  tenacityRetry isRetryableExc (fun n => wrapperBody (f n)) 1 2

/-- Embeds `tenacity.wait_exponential(multiplier, min, max)` evaluated after
attempt number `n`: `max(max(0, min), min(multiplier * 2**n, max))`. -/
def waitExponential (multiplier mn mx : Nat) (n : Nat) : Nat :=
  Nat.max (Nat.max 0 mn) (Nat.min (multiplier * 2 ^ n) mx)

/-- The wait schedule configured on line 87:
`wait_exponential(multiplier=1, min=4, max=10)`. -/
def heygenWait (n : Nat) : Nat := waitExponential 1 4 10 n

/-!
## Voice lookup (`get_valid_voices_py.py`, lines 13-54)

`get_streaming_compatible_voices(api_key)` issues one GET request and
filters the parsed voice list.  The request is abstracted by its
outcome: an exception (`requests.exceptions.RequestException` or any
other error, both of which the function turns into `[]`), or the parsed
`data["data"]["voices"]` list.
-/

/-- A voice record of the vendor response.  The
`support_interactive_avatar` field may be absent (`voice.get(...,
False)`), hence the `Option`. -/
structure Voice where
  voice_id : String
  name : String
  language : String
  support_interactive_avatar : Option Bool
deriving DecidableEq

/-- How the `requests.get` call in the script can fail. -/
inductive FetchError where
  | requestException
  | otherException
deriving DecidableEq

/-- The filter on line 33-36: `voice.get("support_interactive_avatar", False)`. -/
def voiceSupportsStreaming (v : Voice) : Bool :=
  v.support_interactive_avatar.getD false

/-- Embeds `get_streaming_compatible_voices(api_key)` with request outcome
`resp`: on success, the list comprehension keeping the voices whose
`support_interactive_avatar` is truthy; on any exception, `[]`
(lines 43-54). -/
def get_streaming_compatible_voices (resp : Except FetchError (List Voice)) :
    List Voice :=
  match resp with
  | .error _ => []
  | .ok voices => voices.filter voiceSupportsStreaming

/-!
## UI session-creation control flow (`src/app.py`)

The "Start Avatar Session" handler (lines 317-348) is embedded as the
sequence of registry / API-client operations it performs, in order.
`create_streaming_session` (lines 107-150) first obtains a token when
`self.session_token` is unset (`create_session_token`, lines 88-105,
which POSTs `streaming.create_token`) and then POSTs `streaming.new`.
-/

/-- The observable operations of the session-creation flow: a
`SessionManager` capacity check, or a POST to a HeyGen endpoint. -/
inductive UIAction where
  | registryCapacityCheck (user_id : String)
  | apiPost (endpoint : String)
deriving DecidableEq

/-- Calls issued by `HeyGenAvatarSession.create_session_token`
(app.py lines 88-105). -/
def create_session_token_calls : List UIAction :=
  [.apiPost "streaming.create_token"]

/-- Calls issued by `HeyGenAvatarSession.create_streaming_session`
(app.py lines 107-150), given whether `self.session_token` is already
set. -/
def create_streaming_session_calls (hasToken : Bool) : List UIAction :=
  (if hasToken then [] else create_session_token_calls) ++
    [.apiPost "streaming.new"]

/-- The registry/API calls of the "Start Avatar Session" button handler
(app.py lines 317-348): it constructs a fresh
`HeyGenAvatarSession(api_key)` (so `session_token is None`) and calls
`create_streaming_session`; no other registry or API operation occurs. -/
def startAvatarSessionCalls : List UIAction :=
  create_streaming_session_calls false

/-- Recogniser for the registry capacity check among `UIAction`s. -/
def isCapacityCheck : UIAction → Bool
  | .registryCapacityCheck _ => true
  | .apiPost _ => false

/-!
## Spec-side definitions and concrete states used by the claims
-/

/-- Spec-side count for the concurrency-cap claim: the stored sessions
that are active and owned by `uid`. -/
def specActiveOwnedCount (mgr : SessionManager) (uid : String) : Nat :=
  (Dict.values mgr.sessions).countP (fun s => s.active && s.user_id = uid)

/-- An active session owned by `"alice"`, numbered `n`. -/
def aliceSession (n : Nat) : Session :=
  { id := "session_alice_" ++ toString n, user_id := "alice", created_at := 0,
    last_activity := 0, data := [], active := true }

/-- A registry holding three active sessions, all owned by `"alice"`. -/
def mgrThreeAlice : SessionManager :=
  { sessions := [("session_alice_1", aliceSession 1),
                 ("session_alice_2", aliceSession 2),
                 ("session_alice_3", aliceSession 3)],
    session_timeouts := [("session_alice_1", 120),
                         ("session_alice_2", 120),
                         ("session_alice_3", 120)] }

/-- Well-formedness of a registry state: each dict has distinct keys
(automatic for a Python dict) and every id with a recorded timeout has a
stored session.  Every state reachable from `SessionManager.init`
through the embedded operations satisfies this (see
`SessionManager.wf_init` and the preservation lemmas below). -/
def SessionManager.wf (mgr : SessionManager) : Prop :=
  mgr.sessions.keys.Nodup ∧ mgr.session_timeouts.keys.Nodup ∧
    ∀ p ∈ mgr.session_timeouts, (Dict.get mgr.sessions p.1).isSome

/-- The `expired_sessions` list computed inside
`cleanup_expired_sessions` (lines 138-141): the ids whose recorded
timeout satisfies `current_time > timeout`. -/
def expiredIds (mgr : SessionManager) (now : Int) : List String :=
  (mgr.session_timeouts.filter (fun p => now > p.2)).map Prod.fst

/-- Whether the session id `sid` has a recorded timeout that has expired
at instant `now` (`current_time > timeout`). -/
def hasExpiredTimeout (mgr : SessionManager) (now : Int) (sid : String) : Bool :=
  match Dict.get mgr.session_timeouts sid with
  | some t => t < now
  | none => false

/-- Spec-side count for the sweep claim: the stored sessions whose
recorded timeout has expired at `now`. -/
def specDeletedCount (mgr : SessionManager) (now : Int) : Nat :=
  (mgr.sessions.filter (fun p => hasExpiredTimeout mgr now p.1)).length

/-- A registry with one expired (`"s1"`, timeout 10) and one live
(`"s2"`, timeout 200) session, for evaluating the sweep at `now = 100`. -/
def mgrSweepEx : SessionManager :=
  { sessions := [("s1", { id := "s1", user_id := "u1", created_at := 0,
                          last_activity := 0, data := [], active := true }),
                 ("s2", { id := "s2", user_id := "u2", created_at := 0,
                          last_activity := 0, data := [], active := true })],
    session_timeouts := [("s1", 10), ("s2", 200)] }

/-- A breaker with `failure_threshold = 2`, fresh from `init`. -/
def cbTrace0 : CircuitBreaker := CircuitBreaker.init 2 60

/-- State `cbTrace0` after a failed call at instant 0. -/
def cbTrace1 : CircuitBreaker := (cbTrace0.call 0 false).1

/-- State `cbTrace1` after a successful call at instant 1. -/
def cbTrace2 : CircuitBreaker := (cbTrace1.call 1 true).1

/-- State `cbTrace2` after a failed call at instant 2. -/
def cbTrace3 : CircuitBreaker := (cbTrace2.call 2 false).1

/-!
## Lemma layer: dictionary operations
-/

@[simp] theorem Dict.get_nil {V : Type} (k : String) :
    Dict.get ([] : Dict V) k = none := rfl

@[simp] theorem Dict.get_cons {V : Type} (p : String × V) (m : Dict V) (k : String) :
    Dict.get (p :: m) k = if p.1 = k then some p.2 else Dict.get m k := rfl

theorem Dict.get_set_self {V : Type} (m : Dict V) (k : String) (v : V) :
    Dict.get (Dict.set m k v) k = some v := by
  induction m with
  | nil => simp [Dict.set]
  | cons p m ih =>
    by_cases h : p.1 = k <;> simp [Dict.set, h, ih]

theorem Dict.get_set_ne {V : Type} (m : Dict V) (k k' : String) (v : V)
    (h : k' ≠ k) : Dict.get (Dict.set m k v) k' = Dict.get m k' := by
  induction m with
  | nil => simp [Dict.set, Ne.symm h]
  | cons p m ih =>
    by_cases hp : p.1 = k
    · have hpk : p.1 ≠ k' := hp ▸ Ne.symm h
      simp [Dict.set, hp, Ne.symm h, hpk]
    · simp only [Dict.set, if_neg hp, Dict.get_cons]
      by_cases hp' : p.1 = k' <;> simp [hp', ih]

theorem Dict.get_pop_self {V : Type} (m : Dict V) (k : String) :
    Dict.get (Dict.pop m k) k = none := by
  induction m with
  | nil => simp [Dict.pop]
  | cons p m ih =>
    by_cases h : p.1 = k <;> simp [Dict.pop, h, ih]

theorem Dict.get_pop_ne {V : Type} (m : Dict V) (k k' : String)
    (h : k' ≠ k) : Dict.get (Dict.pop m k) k' = Dict.get m k' := by
  induction m with
  | nil => simp [Dict.pop]
  | cons p m ih =>
    by_cases hp : p.1 = k
    · have hpk : p.1 ≠ k' := hp ▸ Ne.symm h
      simp [Dict.pop, hp, hpk, Ne.symm h, ih]
    · simp only [Dict.pop, if_neg hp, Dict.get_cons]
      by_cases hp' : p.1 = k' <;> simp [hp', ih]

theorem Dict.pop_pop_self {V : Type} (m : Dict V) (k : String) :
    Dict.pop (Dict.pop m k) k = Dict.pop m k := by
  induction m with
  | nil => simp [Dict.pop]
  | cons p m ih =>
    by_cases h : p.1 = k <;> simp [Dict.pop, h, ih]

/-!
## Claim theorems
-/

/-- C9: `SessionManager.delete_session` is idempotent and total: for
every `session_id`, including ids not present in the registry, it
returns `True`; afterwards the id is absent from both `sessions` and
`session_timeouts`; and calling it a second time with the same id also
returns `True` and leaves the state unchanged. -/
theorem C9_delete_session_idempotent_total (mgr : SessionManager) (sid : String) :
    (mgr.delete_session sid).2 = true
    ∧ Dict.get (mgr.delete_session sid).1.sessions sid = none
    ∧ Dict.get (mgr.delete_session sid).1.session_timeouts sid = none
    ∧ (mgr.delete_session sid).1.delete_session sid
        = ((mgr.delete_session sid).1, true) := by
  refine ⟨rfl, Dict.get_pop_self _ _, Dict.get_pop_self _ _, ?_⟩
  simp [SessionManager.delete_session, Dict.pop_pop_self]

/-- C3: while the breaker is `OPEN` and strictly less than
`recovery_timeout` seconds have elapsed since `last_failure_time`, every
invocation of `CircuitBreaker.call` raises `CircuitBreakerError`, leaves
the breaker unchanged, and never invokes the wrapped function (the
outcome is `raisedOpen` whatever `funcOk` is, so the result is
independent of the dependency). -/
theorem C3_open_cooldown_blocks_calls (cb : CircuitBreaker) (now t : Int)
    (hs : cb.state = .OPEN) (hl : cb.last_failure_time = some t)
    (hcool : now - t < cb.recovery_timeout) (funcOk : Bool) :
    cb.call now funcOk = (cb, .raisedOpen) := by
  have hng : ¬ (now - t > cb.recovery_timeout) := by omega
  simp [CircuitBreaker.call, CircuitBreaker.openCheck, hs, hl, hng]

/-- Witness for C3: a breaker that opened at instant 0 with a 60-second
cooldown rejects a call at instant 30 without running the function. -/
theorem C3_open_cooldown_blocks_calls_witness :
    (CircuitBreaker.mk 5 60 5 (some 0) .OPEN).call 30 true
      = (CircuitBreaker.mk 5 60 5 (some 0) .OPEN, .raisedOpen) :=
  C3_open_cooldown_blocks_calls _ 30 0 rfl rfl (by decide) true

/-- C8: the voice-lookup utility is a pure filter over the vendor
listing response: on a successful request it returns exactly the
sublist, in order, of the voices whose `support_interactive_avatar`
field is true, and it returns `[]` whenever the request fails. -/
theorem C8_voice_lookup_pure_filter :
    (∀ voices : List Voice,
       get_streaming_compatible_voices (.ok voices)
         = voices.filter (fun v => v.support_interactive_avatar = some true))
    ∧ ∀ e : FetchError, get_streaming_compatible_voices (.error e) = [] := by
  constructor
  · intro voices
    unfold get_streaming_compatible_voices
    apply List.filter_congr
    intro v _
    cases h : v.support_interactive_avatar with
    | none => simp [voiceSupportsStreaming, h]
    | some b => cases b <;> simp [voiceSupportsStreaming, h]
  · intro e
    rfl

/-- C6 counterexample: in the calls issued by the "Start Avatar Session"
handler, the POST to `streaming.new` is *not* preceded by any registry
capacity check — the decomposition with
`pre = [apiPost "streaming.create_token"]` has no capacity check in the
prefix, refuting the claim that the UI never invokes the API client's
session-creation operation without first passing the registry's
capacity check. -/
theorem C6_counterexample :
    ¬ (∀ pre post : List UIAction,
        startAvatarSessionCalls = pre ++ .apiPost "streaming.new" :: post →
        pre.any isCapacityCheck = true) := by
  intro h
  have h1 := h [.apiPost "streaming.create_token"] [] rfl
  simp [isCapacityCheck] at h1

/-- C6 amended: the "Start Avatar Session" handler issues exactly the
API client's token-create and session-create calls, and performs no
session-registry capacity check at all. -/
theorem C6_amended_no_capacity_check :
    startAvatarSessionCalls
      = [.apiPost "streaming.create_token", .apiPost "streaming.new"]
    ∧ startAvatarSessionCalls.any isCapacityCheck = false :=
  ⟨rfl, rfl⟩

/-- C1 counterexample: with three active sessions all owned by
`"alice"`, the empty-string user owns no active session (0 < 3), yet
`can_create_session("")` returns `False`: the `not user_id` truthiness
test on line 176 makes the count include *every* user's active sessions
when `user_id` is falsy, so the claimed equivalence fails for
`user_id = ""`. -/
theorem C1_counterexample :
    ¬ ((mgrThreeAlice.can_create_session defaultSettings "" = true)
        ↔ specActiveOwnedCount mgrThreeAlice ""
            < defaultSettings.max_concurrent_sessions) := by
  decide

/-- C1 amended: for every *non-empty* `user_id` and every registry
state, `can_create_session(user_id)` returns `True` iff the number of
stored sessions that are active and owned by `user_id` is strictly
below `settings.max_concurrent_sessions` (for the falsy `user_id = ""`
the code instead compares the count of all users' active sessions
against the cap). -/
theorem C1_amended_capacity_check (st : Settings) (mgr : SessionManager)
    (uid : String) (h : uid ≠ "") :
    mgr.can_create_session st uid = true
      ↔ specActiveOwnedCount mgr uid < st.max_concurrent_sessions := by
  have hcnt : mgr.get_active_session_count (some uid)
      = specActiveOwnedCount mgr uid := by
    unfold SessionManager.get_active_session_count specActiveOwnedCount
    apply List.countP_congr
    intro s _
    simp [sessionCounted, optStrFalsy, userIdMatches, h]
  unfold SessionManager.can_create_session
  rw [hcnt]
  simp

/-- Witness for the amended C1: for the non-empty user `"alice"`,
holding three active sessions against the default cap of 3. -/
theorem C1_amended_capacity_check_witness :
    (mgrThreeAlice.can_create_session defaultSettings "alice" = true)
      ↔ specActiveOwnedCount mgrThreeAlice "alice"
          < defaultSettings.max_concurrent_sessions :=
  C1_amended_capacity_check defaultSettings mgrThreeAlice "alice" (by decide)

/-- C2 counterexample: with `failure_threshold = 2`, the run
fail (instant 0) — success (instant 1) — fail (instant 2) ends `OPEN`:
the successful call completed normally (so by the claim it ended the
run of consecutive failures), yet the single following failure — a run
of one consecutive failure, fewer than the threshold — opened the
circuit, because a success in `CLOSED` state does not reset
`failure_count` (the count is cumulative, not consecutive). -/
theorem C2_counterexample :
    (cbTrace1.call 1 true).2 = .ok
    ∧ cbTrace2.state = .CLOSED
    ∧ cbTrace2.failure_count = 1
    ∧ cbTrace3.state = .OPEN := by
  decide

/-- C2 amended: the breaker starts `CLOSED`; a successful call in
`CLOSED` leaves the breaker unchanged (in particular it does *not*
clear `failure_count`); a failed call in `CLOSED` increments
`failure_count` and moves to `OPEN` exactly when the cumulative count
since the last reset reaches `failure_threshold`; from `OPEN`, the
first call attempted strictly more than `recovery_timeout` seconds
after the last failure moves the breaker to `HALF_OPEN` (and, when the
call succeeds, on to `CLOSED` with the count cleared); from
`HALF_OPEN`, a successful call returns to `CLOSED` with
`failure_count = 0`. -/
theorem C2_amended_protocol (ft : Nat) (rt : Int) (cb : CircuitBreaker)
    (now t : Int) :
    ((CircuitBreaker.init ft rt).state = .CLOSED)
    ∧ (cb.state = .CLOSED → cb.call now true = (cb, .ok))
    ∧ (cb.state = .CLOSED →
        ((cb.call now false).1.failure_count = cb.failure_count + 1
         ∧ ((cb.call now false).1.state = .OPEN
              ↔ cb.failure_threshold ≤ cb.failure_count + 1)))
    ∧ (cb.state = .OPEN → cb.last_failure_time = some t →
        now - t > cb.recovery_timeout →
        cb.openCheck now = ({ cb with state := .HALF_OPEN }, false))
    ∧ (cb.state = .OPEN → cb.last_failure_time = some t →
        now - t > cb.recovery_timeout →
        ((cb.call now true).1.state = .CLOSED
         ∧ (cb.call now true).1.failure_count = 0))
    ∧ (cb.state = .HALF_OPEN →
        ((cb.call now true).1.state = .CLOSED
         ∧ (cb.call now true).1.failure_count = 0)) := by
  refine ⟨rfl, ?_, ?_, ?_, ?_, ?_⟩
  · intro hs
    simp [CircuitBreaker.call, CircuitBreaker.openCheck, hs]
  · intro hs
    have hcall : (cb.call now false).1 = cb.record_failure now := by
      simp [CircuitBreaker.call, CircuitBreaker.openCheck, hs]
    rw [hcall]
    unfold CircuitBreaker.record_failure
    by_cases hth : cb.failure_threshold ≤ cb.failure_count + 1 <;>
      simp [hth, hs]
  · intro hs hl hgt
    simp [CircuitBreaker.openCheck, hs, hl, hgt]
  · intro hs hl hgt
    simp [CircuitBreaker.call, CircuitBreaker.openCheck, CircuitBreaker.reset,
      hs, hl, hgt]
  · intro hs
    have hno : cb.state ≠ .OPEN := by rw [hs]; intro hc; cases hc
    simp [CircuitBreaker.call, CircuitBreaker.openCheck, CircuitBreaker.reset,
      hno, hs]

/-- Witness for the amended C2: each conjunct evaluated on concrete
breakers — a fresh breaker, a success and a failure in `CLOSED`, the
`OPEN` → `HALF_OPEN` transition past the cooldown, its continuation to
`CLOSED` on success, and the `HALF_OPEN` → `CLOSED` reset. -/
theorem C2_amended_protocol_witness :
    (CircuitBreaker.init 5 60).state = .CLOSED
    ∧ (CircuitBreaker.mk 5 60 2 (some 0) .CLOSED).call 10 true
        = (CircuitBreaker.mk 5 60 2 (some 0) .CLOSED, .ok)
    ∧ ((CircuitBreaker.mk 2 60 1 (some 0) .CLOSED).call 10 false).1.state = .OPEN
    ∧ (CircuitBreaker.mk 5 60 5 (some 0) .OPEN).openCheck 100
        = (CircuitBreaker.mk 5 60 5 (some 0) .HALF_OPEN, false)
    ∧ ((CircuitBreaker.mk 5 60 5 (some 0) .OPEN).call 100 true).1.state = .CLOSED
    ∧ ((CircuitBreaker.mk 5 60 5 (some 3) .HALF_OPEN).call 10 true).1.failure_count
        = 0 :=
  ⟨(C2_amended_protocol 5 60 (CircuitBreaker.init 5 60) 0 0).1,
   (C2_amended_protocol 5 60 (CircuitBreaker.mk 5 60 2 (some 0) .CLOSED) 10 0).2.1
     rfl,
   ((C2_amended_protocol 2 60 (CircuitBreaker.mk 2 60 1 (some 0) .CLOSED) 10 0).2.2.1
     rfl).2.mpr (by decide),
   (C2_amended_protocol 5 60 (CircuitBreaker.mk 5 60 5 (some 0) .OPEN) 100 0).2.2.2.1
     rfl rfl (by decide),
   ((C2_amended_protocol 5 60 (CircuitBreaker.mk 5 60 5 (some 0) .OPEN) 100 0).2.2.2.2.1
     rfl rfl (by decide)).1,
   ((C2_amended_protocol 5 60 (CircuitBreaker.mk 5 60 5 (some 3) .HALF_OPEN) 10 3).2.2.2.2.2
     rfl).2⟩

/-- A record still stored after `delete_session` was stored before. -/
theorem SessionManager.get_delete_some {mgr : SessionManager} {k sid : String}
    {s : Session}
    (h : Dict.get (mgr.delete_session k).1.sessions sid = some s) :
    Dict.get mgr.sessions sid = some s := by
  by_cases hk : sid = k
  · subst hk
    rw [SessionManager.delete_session] at h
    simp [Dict.get_pop_self] at h
  · rw [SessionManager.delete_session] at h
    rwa [Dict.get_pop_ne _ _ _ hk] at h

/-- A record still stored after a fold of `delete_session` over a list
of ids was stored before. -/
theorem SessionManager.get_foldl_delete_some (E : List String)
    (mgr : SessionManager) {sid : String} {s : Session}
    (h : Dict.get
        ((E.foldl (fun m k => (SessionManager.delete_session m k).1) mgr)).sessions
        sid = some s) :
    Dict.get mgr.sessions sid = some s := by
  induction E generalizing mgr with
  | nil => exact h
  | cons k E ih => exact SessionManager.get_delete_some (ih _ h)

/-- C10: `SessionManager.update_session` is atomic on error — if
`session_id` is absent it returns `False` and leaves both dicts exactly
unchanged; if the session exists it returns `True`, merges `updates`
into the session's `data` field, refreshes `last_activity` to the
current instant, leaves every other session unchanged, and never
touches `session_timeouts`. -/
theorem C10_update_session_atomic (mgr : SessionManager) (sid : String)
    (upd : Dict String) (now : Int) :
    (Dict.get mgr.sessions sid = none →
       mgr.update_session sid upd now = (mgr, false))
    ∧ (∀ s, Dict.get mgr.sessions sid = some s →
        (mgr.update_session sid upd now).2 = true
        ∧ Dict.get (mgr.update_session sid upd now).1.sessions sid
            = some { s with last_activity := now,
                            data := Dict.updateWith s.data upd }
        ∧ (∀ sid', sid' ≠ sid →
            Dict.get (mgr.update_session sid upd now).1.sessions sid'
              = Dict.get mgr.sessions sid')
        ∧ (mgr.update_session sid upd now).1.session_timeouts
            = mgr.session_timeouts) := by
  constructor
  · intro h
    simp [SessionManager.update_session, h]
  · intro s h
    refine ⟨?_, ?_, ?_, ?_⟩
    · simp [SessionManager.update_session, h]
    · simp [SessionManager.update_session, h, Dict.get_set_self]
    · intro sid' hne
      simp [SessionManager.update_session, h, Dict.get_set_ne _ _ _ _ hne]
    · simp [SessionManager.update_session, h]

/-- Witness for C10: on the concrete registry `mgrSweepEx`, updating an
absent id leaves the state unchanged and returns `False`; updating
`"s1"` returns `True` and stores the merged record with the refreshed
`last_activity`. -/
theorem C10_update_session_atomic_witness :
    mgrSweepEx.update_session "absent" [("k", "v")] 50 = (mgrSweepEx, false)
    ∧ (mgrSweepEx.update_session "s1" [("k", "v")] 50).2 = true
    ∧ Dict.get (mgrSweepEx.update_session "s1" [("k", "v")] 50).1.sessions "s1"
        = some { id := "s1", user_id := "u1", created_at := 0,
                 last_activity := 50, data := [("k", "v")], active := true } :=
  ⟨(C10_update_session_atomic mgrSweepEx "absent" [("k", "v")] 50).1 rfl,
   ((C10_update_session_atomic mgrSweepEx "s1" [("k", "v")] 50).2
     { id := "s1", user_id := "u1", created_at := 0, last_activity := 0,
       data := [], active := true } rfl).1,
   ((C10_update_session_atomic mgrSweepEx "s1" [("k", "v")] 50).2
     { id := "s1", user_id := "u1", created_at := 0, last_activity := 0,
       data := [], active := true } rfl).2.1⟩

/-- C7: every session stored by `create_session` belongs to the creating
user and has a TTL — the stored record's `user_id` equals the creator's
id and `session_timeouts` maps the new id to the creation time plus
`settings.session_timeout`; and the `user_id` field never changes
thereafter: `update_session` preserves it for every stored record,
`delete_session` and `cleanup_expired_sessions` only remove records,
and a later `create_session` leaves every id other than the one it
returns untouched. -/
theorem C7_session_ownership_and_ttl (st : Settings) (mgr : SessionManager)
    (uid : String) (sd : Dict String) (now : Int) :
    (Dict.get (mgr.create_session st uid sd now).1.sessions
        (mgr.create_session st uid sd now).2
      = some { id := (mgr.create_session st uid sd now).2, user_id := uid,
               created_at := now, last_activity := now, data := sd,
               active := true })
    ∧ Dict.get (mgr.create_session st uid sd now).1.session_timeouts
        (mgr.create_session st uid sd now).2 = some (now + st.session_timeout)
    ∧ (∀ (m : SessionManager) (sid : String) (upd : Dict String) (now' : Int)
         (sid₂ : String) (s s' : Session),
        Dict.get m.sessions sid₂ = some s →
        Dict.get (m.update_session sid upd now').1.sessions sid₂ = some s' →
        s'.user_id = s.user_id)
    ∧ (∀ (m : SessionManager) (sid sid₂ : String) (s' : Session),
        Dict.get (m.delete_session sid).1.sessions sid₂ = some s' →
        Dict.get m.sessions sid₂ = some s')
    ∧ (∀ (m : SessionManager) (now₂ : Int) (sid₂ : String) (s' : Session),
        Dict.get (m.cleanup_expired_sessions now₂).1.sessions sid₂ = some s' →
        Dict.get m.sessions sid₂ = some s')
    ∧ (∀ (m : SessionManager) (st' : Settings) (uid' : String)
         (sd' : Dict String) (now' : Int) (sid₂ : String),
        sid₂ ≠ (m.create_session st' uid' sd' now').2 →
        Dict.get (m.create_session st' uid' sd' now').1.sessions sid₂
          = Dict.get m.sessions sid₂) := by
  refine ⟨?_, ?_, ?_, ?_, ?_, ?_⟩
  · simp [SessionManager.create_session, Dict.get_set_self]
  · simp [SessionManager.create_session, Dict.get_set_self]
  · intro m sid upd now' sid₂ s s' hs hs'
    by_cases hq : sid₂ = sid
    · subst hq
      rcases hm : Dict.get m.sessions sid₂ with _ | s₀
      · rw [hm] at hs
        cases hs
      · rw [hm] at hs
        injection hs with hss
        subst hss
        rw [SessionManager.update_session, hm] at hs'
        simp [Dict.get_set_self] at hs'
        rw [← hs']
    · rcases hm : Dict.get m.sessions sid with _ | s₀
      · rw [SessionManager.update_session, hm] at hs'
        simp at hs'
        rw [hs] at hs'
        injection hs' with h
        rw [h]
      · rw [SessionManager.update_session, hm] at hs'
        simp [Dict.get_set_ne _ _ _ _ hq] at hs'
        rw [hs] at hs'
        injection hs' with h
        rw [h]
  · intro m sid sid₂ s' h
    exact SessionManager.get_delete_some h
  · intro m now₂ sid₂ s' h
    exact SessionManager.get_foldl_delete_some _ _ h
  · intro m st' uid' sd' now' sid₂ hne
    simp only [SessionManager.create_session]
    exact Dict.get_set_ne _ _ _ _ hne

/-- Witness for C7: a creation on the empty registry at instant 100
stores a record owned by `"alice"` with timeout `100 + 120`; the
preservation conjuncts evaluated on `mgrSweepEx` (an update of `"s1"`,
a deletion of `"s2"`, a sweep at instant 100, and a creation by
`"bob"`). -/
theorem C7_session_ownership_and_ttl_witness :
    Dict.get (SessionManager.init.create_session defaultSettings "alice" [] 100).1.sessions
        (SessionManager.init.create_session defaultSettings "alice" [] 100).2
      = some { id := (SessionManager.init.create_session defaultSettings "alice" [] 100).2,
               user_id := "alice", created_at := 100, last_activity := 100,
               data := [], active := true }
    ∧ Dict.get (SessionManager.init.create_session defaultSettings "alice" [] 100).1.session_timeouts
        (SessionManager.init.create_session defaultSettings "alice" [] 100).2
      = some 220
    ∧ ({ id := "s1", user_id := "u1", created_at := 0, last_activity := 50,
         data := [("k", "v")], active := true } : Session).user_id
      = ({ id := "s1", user_id := "u1", created_at := 0, last_activity := 0,
           data := [], active := true } : Session).user_id
    ∧ Dict.get mgrSweepEx.sessions "s1"
      = some { id := "s1", user_id := "u1", created_at := 0, last_activity := 0,
               data := [], active := true }
    ∧ Dict.get mgrSweepEx.sessions "s2"
      = some { id := "s2", user_id := "u2", created_at := 0, last_activity := 0,
               data := [], active := true }
    ∧ Dict.get (mgrSweepEx.create_session defaultSettings "bob" [] 7).1.sessions "other"
      = Dict.get mgrSweepEx.sessions "other" :=
  ⟨(C7_session_ownership_and_ttl defaultSettings SessionManager.init "alice" [] 100).1,
   (C7_session_ownership_and_ttl defaultSettings SessionManager.init "alice" [] 100).2.1,
   (C7_session_ownership_and_ttl defaultSettings SessionManager.init "alice" [] 100).2.2.1
     mgrSweepEx "s1" [("k", "v")] 50 "s1"
     { id := "s1", user_id := "u1", created_at := 0, last_activity := 0,
       data := [], active := true }
     { id := "s1", user_id := "u1", created_at := 0, last_activity := 50,
       data := [("k", "v")], active := true } rfl rfl,
   (C7_session_ownership_and_ttl defaultSettings SessionManager.init "alice" [] 100).2.2.2.1
     mgrSweepEx "s2" "s1"
     { id := "s1", user_id := "u1", created_at := 0, last_activity := 0,
       data := [], active := true } rfl,
   (C7_session_ownership_and_ttl defaultSettings SessionManager.init "alice" [] 100).2.2.2.2.1
     mgrSweepEx 100 "s2"
     { id := "s2", user_id := "u2", created_at := 0, last_activity := 0,
       data := [], active := true } rfl,
   (C7_session_ownership_and_ttl defaultSettings SessionManager.init "alice" [] 100).2.2.2.2.2
     mgrSweepEx defaultSettings "bob" [] 7 "other" (by decide)⟩

/-- The attempt number on which `tenacityRetry` settles never exceeds
the starting attempt number plus the retry budget. -/
theorem tenacityRetry_attempt_le {α : Type} (retryable : PyExc → Bool)
    (body : Nat → Except PyExc α) (attempt fuel : Nat) :
    (tenacityRetry retryable body attempt fuel).2 ≤ attempt + fuel := by
  induction fuel generalizing attempt with
  | zero => simp [tenacityRetry]
  | succ f ih =>
    unfold tenacityRetry
    cases h : body attempt with
    | ok v => simp
    | error e =>
      by_cases hr : retryable e = true
      · simp only [hr, if_true]
        calc (tenacityRetry retryable body (attempt + 1) f).2
            ≤ attempt + 1 + f := ih (attempt + 1)
          _ = attempt + (f + 1) := by omega
      · simp only [hr, Bool.false_eq_true, if_false]
        exact Nat.le_add_right attempt (f + 1)

/-- C5 counterexample: the configured wait schedule
`wait_exponential(multiplier=1, min=4, max=10)` yields 4 seconds after
attempt 1 *and* 4 seconds after attempt 2 (the exponential values 2 and
4 are clamped up to `min=4`), so the waits between the three attempts
are equal — not exponentially increasing. -/
theorem C5_counterexample :
    heygenWait 1 = 4 ∧ heygenWait 2 = 4 ∧ ¬ heygenWait 1 < heygenWait 2 := by
  decide

/-- C5 amended: every call wrapped by `handle_api_errors` is attempted
at most 3 times; the waits between attempts follow the exponential
schedule clamped to the interval [4, 10] seconds and are non-decreasing
(with these parameters both waits equal 4s); a first-attempt success or
a non-retryable exception (anything other than `httpx.HTTPError` or
`HeyGenAPIError`, e.g. `CircuitBreakerError`) ends the call on attempt
1; and when all three attempts raise retryable errors the *last*
exception is re-raised to the caller rather than swallowed. -/
theorem C5_amended_bounded_retry (α : Type) (f : Nat → Except PyExc α)
    (v : α) (e e1 e2 e3 : PyExc) :
    ((handle_api_errors f).2 ≤ 3)
    ∧ (wrapperBody (f 1) = .ok v → handle_api_errors f = (.ok v, 1))
    ∧ (wrapperBody (f 1) = .error e → isRetryableExc e = false →
        handle_api_errors f = (.error e, 1))
    ∧ (wrapperBody (f 1) = .error e1 → isRetryableExc e1 = true →
       wrapperBody (f 2) = .error e2 → isRetryableExc e2 = true →
       wrapperBody (f 3) = .error e3 →
        handle_api_errors f = (.error e3, 3))
    ∧ (∀ n : Nat, 4 ≤ heygenWait n ∧ heygenWait n ≤ 10)
    ∧ (∀ n m : Nat, n ≤ m → heygenWait n ≤ heygenWait m) := by
  refine ⟨?_, ?_, ?_, ?_, ?_, ?_⟩
  · exact tenacityRetry_attempt_le _ _ 1 2
  · intro h
    simp [handle_api_errors, tenacityRetry, h]
  · intro h hr
    simp [handle_api_errors, tenacityRetry, h, hr]
  · intro h1 hr1 h2 hr2 h3
    simp [handle_api_errors, tenacityRetry, h1, hr1, h2, hr2, h3]
  · intro n
    constructor
    · exact le_trans (by decide) (Nat.le_max_left (Nat.max 0 4) _)
    · exact Nat.max_le.mpr ⟨by decide, Nat.min_le_right _ _⟩
  · intro n m h
    simp only [heygenWait, waitExponential, Nat.one_mul]
    exact max_le_max (le_refl _)
      (min_le_min (Nat.pow_le_pow_right (by decide) h) (le_refl 10))

/-- Witness for the amended C5: a call failing with a network error on
every attempt is retried to exactly 3 attempts and the final translated
`HeyGenAPIError` is re-raised; a `CircuitBreakerError` is not retried;
a first-attempt success returns at once; and the wait after attempt 2
lies in [4, 10]. -/
theorem C5_amended_bounded_retry_witness :
    handle_api_errors (fun _ => (.error .requestError : Except PyExc Nat))
      = (.error (.heygenAPIError none false), 3)
    ∧ handle_api_errors (fun _ => (.error .circuitBreakerError : Except PyExc Nat))
      = (.error .circuitBreakerError, 1)
    ∧ handle_api_errors (fun _ => (.ok 7 : Except PyExc Nat)) = (.ok 7, 1)
    ∧ 4 ≤ heygenWait 2 ∧ heygenWait 2 ≤ 10 :=
  ⟨(C5_amended_bounded_retry Nat (fun _ => .error .requestError) 0
      (.heygenAPIError none false) (.heygenAPIError none false)
      (.heygenAPIError none false) (.heygenAPIError none false)).2.2.2.1
      rfl rfl rfl rfl rfl,
   (C5_amended_bounded_retry Nat (fun _ => .error .circuitBreakerError) 0
      .circuitBreakerError .circuitBreakerError .circuitBreakerError
      .circuitBreakerError).2.2.1 rfl rfl,
   (C5_amended_bounded_retry Nat (fun _ => .ok 7) 7 .otherError .otherError
      .otherError .otherError).2.1 rfl,
   ((C5_amended_bounded_retry Nat (fun _ => .ok 7) 7 .otherError .otherError
      .otherError .otherError).2.2.2.2.1 2).1,
   ((C5_amended_bounded_retry Nat (fun _ => .ok 7) 7 .otherError .otherError
      .otherError .otherError).2.2.2.2.1 2).2⟩

/-- Lookup `Dict.get` is `none` exactly for keys outside the key list. -/
theorem Dict.get_eq_none_iff {V : Type} (m : Dict V) (k : String) :
    Dict.get m k = none ↔ k ∉ Dict.keys m := by
  induction m with
  | nil => simp [Dict.keys]
  | cons p m ih =>
    by_cases h : p.1 = k
    · subst h
      simp [Dict.keys]
    · simp only [Dict.keys, List.map_cons, List.mem_cons, Dict.get_cons,
        if_neg h, not_or]
      simp only [Dict.keys] at ih
      rw [ih]
      have : ¬ k = p.1 := Ne.symm h
      tauto

/-- A successful `Dict.get` exhibits a stored entry. -/
theorem Dict.mem_of_get_eq_some {V : Type} {m : Dict V} {k : String} {v : V}
    (h : Dict.get m k = some v) : (k, v) ∈ m := by
  induction m with
  | nil => cases h
  | cons p m ih =>
    by_cases hp : p.1 = k
    · rw [Dict.get_cons, if_pos hp] at h
      injection h with h
      exact List.mem_cons.mpr (Or.inl (by rw [← hp, ← h]))
    · rw [Dict.get_cons, if_neg hp] at h
      exact List.mem_cons_of_mem _ (ih h)

/-- On a dict with distinct keys, a stored entry is what `Dict.get`
returns. -/
theorem Dict.get_eq_some_of_mem {V : Type} {m : Dict V} {k : String} {v : V}
    (hnd : (Dict.keys m).Nodup) (h : (k, v) ∈ m) : Dict.get m k = some v := by
  induction m with
  | nil => cases h
  | cons p m ih =>
    simp only [Dict.keys, List.map_cons, List.nodup_cons] at hnd
    rcases List.mem_cons.mp h with h | h
    · rw [← h]
      simp
    · have hk : k ∈ List.map Prod.fst m := List.mem_map.mpr ⟨(k, v), h, rfl⟩
      have hpk : p.1 ≠ k := fun hc => hnd.1 (hc ▸ hk)
      rw [Dict.get_cons, if_neg hpk]
      exact ih hnd.2 h

/-- Removal `Dict.pop` is a filter on the key. -/
theorem Dict.pop_eq_filter {V : Type} (m : Dict V) (k : String) :
    Dict.pop m k = m.filter (fun p => decide (¬ p.1 = k)) := by
  induction m with
  | nil => rfl
  | cons p m ih =>
    by_cases h : p.1 = k <;> simp [Dict.pop, h, ih]

/-- Folding `Dict.pop` over a list of keys filters out those keys. -/
theorem Dict.foldl_pop_eq_filter {V : Type} (E : List String) (m : Dict V) :
    E.foldl (fun acc k => Dict.pop acc k) m
      = m.filter (fun p => decide (p.1 ∉ E)) := by
  induction E generalizing m with
  | nil => simp
  | cons k E ih =>
    rw [List.foldl_cons, ih, Dict.pop_eq_filter, List.filter_filter]
    apply List.filter_congr
    intro p _
    by_cases h1 : p.1 = k <;> by_cases h2 : p.1 ∈ E <;>
      simp [h1, h2, List.mem_cons]

/-- Lookup `Dict.get` after a filter, on a dict with distinct keys: the looked
up value survives iff the filter keeps its entry. -/
theorem Dict.get_filter {V : Type} (q : String × V → Bool) (m : Dict V)
    (hnd : (Dict.keys m).Nodup) (k : String) :
    Dict.get (m.filter q) k = (Dict.get m k).filter (fun v => q (k, v)) := by
  induction m with
  | nil => rfl
  | cons p m ih =>
    obtain ⟨a, b⟩ := p
    simp only [Dict.keys, List.map_cons, List.nodup_cons] at hnd
    by_cases hq : q (a, b) = true
    · rw [List.filter_cons_of_pos hq]
      by_cases hak : a = k
      · subst hak
        simp [Option.filter, hq]
      · rw [Dict.get_cons, Dict.get_cons, if_neg hak, if_neg hak]
        exact ih hnd.2
    · rw [List.filter_cons_of_neg (by simpa using hq)]
      by_cases hak : a = k
      · subst hak
        have hget : Dict.get m a = none :=
          (Dict.get_eq_none_iff m a).mpr hnd.1
        rw [ih hnd.2, hget]
        simp [Option.filter, hq]
      · rw [Dict.get_cons, if_neg hak]
        exact ih hnd.2

/-- Filtering by a disjunction of pointwise-disjoint predicates splits
the count. -/
theorem length_filter_or_disjoint {α : Type} (l : List α) (p q : α → Bool)
    (hdisj : ∀ x ∈ l, ¬(p x = true ∧ q x = true)) :
    (l.filter (fun x => p x || q x)).length
      = (l.filter p).length + (l.filter q).length := by
  induction l with
  | nil => rfl
  | cons x l ih =>
    have hd : ∀ y ∈ l, ¬(p y = true ∧ q y = true) :=
      fun y hy => hdisj y (List.mem_cons_of_mem _ hy)
    have hx := hdisj x (List.mem_cons_self _ _)
    cases hp : p x with
    | true =>
      cases hq : q x with
      | true => exact absurd ⟨hp, hq⟩ hx
      | false =>
        simp only [List.filter_cons, hp, hq, Bool.true_or, if_true,
          Bool.false_eq_true, if_false, List.length_cons, ih hd]
        omega
    | false =>
      cases hq : q x with
      | true =>
        simp only [List.filter_cons, hp, hq, Bool.false_or, if_true,
          Bool.false_eq_true, if_false, List.length_cons, ih hd]
        omega
      | false =>
        simp only [List.filter_cons, hp, hq, Bool.false_or,
          Bool.false_eq_true, if_false, ih hd]

/-- On a dict with distinct keys, filtering for a present key keeps
exactly one entry. -/
theorem filter_key_length_one {V : Type} (m : Dict V) (k : String)
    (hnd : (Dict.keys m).Nodup) (hk : k ∈ Dict.keys m) :
    (m.filter (fun p => decide (p.1 = k))).length = 1 := by
  induction m with
  | nil => cases hk
  | cons p m ih =>
    simp only [Dict.keys, List.map_cons, List.nodup_cons] at hnd
    by_cases hpk : p.1 = k
    · have hnil : m.filter (fun p => decide (p.1 = k)) = [] := by
        rw [List.filter_eq_nil_iff]
        intro a ha
        have : a.1 ∈ List.map Prod.fst m := List.mem_map.mpr ⟨a, ha, rfl⟩
        simp only [decide_eq_true_eq]
        intro hak
        exact hnd.1 (hpk ▸ hak ▸ this)
      rw [List.filter_cons_of_pos (by simpa using hpk), hnil]
      rfl
    · have hk' : k ∈ List.map Prod.fst m := by
        simp only [Dict.keys, List.map_cons, List.mem_cons] at hk
        rcases hk with h | h
        · exact absurd h.symm hpk
        · exact h
      rw [List.filter_cons_of_neg (by simpa using hpk)]
      exact ih hnd.2 hk'

/-- On a dict with distinct keys, filtering for membership in a
duplicate-free list of present keys keeps exactly one entry per key. -/
theorem length_filter_mem_keys {V : Type} (E : List String) (m : Dict V)
    (hE : E.Nodup) (hnd : (Dict.keys m).Nodup)
    (hsub : ∀ k ∈ E, k ∈ Dict.keys m) :
    (m.filter (fun p => decide (p.1 ∈ E))).length = E.length := by
  induction E with
  | nil => simp
  | cons k E ih =>
    rw [List.nodup_cons] at hE
    have hcongr : m.filter (fun p => decide (p.1 ∈ k :: E))
        = m.filter (fun p => decide (p.1 = k) || decide (p.1 ∈ E)) := by
      apply List.filter_congr
      intro p _
      simp [List.mem_cons]
    rw [hcongr, length_filter_or_disjoint]
    · rw [filter_key_length_one m k hnd (hsub k (List.mem_cons_self _ _)),
        ih hE.2 (fun k' hk' => hsub k' (List.mem_cons_of_mem _ hk'))]
      simp [Nat.add_comm]
    · intro p _ hc
      rw [decide_eq_true_eq] at hc
      rcases hc with ⟨h1, h2⟩
      rw [decide_eq_true_eq] at h2
      exact hE.1 (h1 ▸ h2)

/-- The sweep leaves `sessions` filtered on the expired-id list. -/
theorem cleanup_sessions_eq (mgr : SessionManager) (now : Int) :
    (mgr.cleanup_expired_sessions now).1.sessions
      = mgr.sessions.filter (fun p => decide (p.1 ∉ expiredIds mgr now)) := by
  have hfold : ∀ (E : List String) (m : SessionManager),
      (E.foldl (fun m sid => (SessionManager.delete_session m sid).1) m).sessions
        = E.foldl (fun acc k => Dict.pop acc k) m.sessions := by
    intro E
    induction E with
    | nil => intro m; rfl
    | cons k E ih =>
      intro m
      rw [List.foldl_cons, List.foldl_cons, ih]
      rfl
  have hstate : (mgr.cleanup_expired_sessions now).1
      = (expiredIds mgr now).foldl
          (fun m sid => (SessionManager.delete_session m sid).1) mgr := rfl
  rw [hstate, hfold, Dict.foldl_pop_eq_filter]

/-- The sweep leaves `session_timeouts` filtered on the expired-id
list. -/
theorem cleanup_timeouts_eq (mgr : SessionManager) (now : Int) :
    (mgr.cleanup_expired_sessions now).1.session_timeouts
      = mgr.session_timeouts.filter
          (fun p => decide (p.1 ∉ expiredIds mgr now)) := by
  have hfold : ∀ (E : List String) (m : SessionManager),
      (E.foldl (fun m sid => (SessionManager.delete_session m sid).1)
          m).session_timeouts
        = E.foldl (fun acc k => Dict.pop acc k) m.session_timeouts := by
    intro E
    induction E with
    | nil => intro m; rfl
    | cons k E ih =>
      intro m
      rw [List.foldl_cons, List.foldl_cons, ih]
      rfl
  have hstate : (mgr.cleanup_expired_sessions now).1
      = (expiredIds mgr now).foldl
          (fun m sid => (SessionManager.delete_session m sid).1) mgr := rfl
  rw [hstate, hfold, Dict.foldl_pop_eq_filter]

/-- With distinct timeout keys, an id is on the expired list exactly
when its recorded timeout has expired. -/
theorem mem_expiredIds_iff (mgr : SessionManager) (now : Int) (sid : String)
    (hnd : (Dict.keys mgr.session_timeouts).Nodup) :
    sid ∈ expiredIds mgr now ↔ hasExpiredTimeout mgr now sid = true := by
  constructor
  · intro h
    rcases List.mem_map.mp h with ⟨p, hp, hfst⟩
    rcases List.mem_filter.mp hp with ⟨hmem, hlt⟩
    have hget : Dict.get mgr.session_timeouts sid = some p.2 := by
      apply Dict.get_eq_some_of_mem hnd
      rw [← hfst]
      simpa using hmem
    simp only [hasExpiredTimeout, hget]
    simpa using hlt
  · intro h
    cases hget : Dict.get mgr.session_timeouts sid with
    | none => simp [hasExpiredTimeout, hget] at h
    | some t =>
      simp only [hasExpiredTimeout, hget, decide_eq_true_eq] at h
      have hmem : (sid, t) ∈ mgr.session_timeouts := Dict.mem_of_get_eq_some hget
      exact List.mem_map.mpr
        ⟨(sid, t), List.mem_filter.mpr ⟨hmem, by simpa using h⟩, rfl⟩

/-- C4: on a well-formed registry, `cleanup_expired_sessions` deletes
exactly the sessions whose recorded timeout in `session_timeouts` is
strictly less than the current time — each such id is removed from both
`sessions` and `session_timeouts` — leaves every non-expired session
(and every id with no recorded timeout) unchanged, and returns the
number of stored sessions it deleted. -/
theorem C4_cleanup_deletes_exactly_expired (mgr : SessionManager) (now : Int)
    (hwf : mgr.wf) :
    (∀ sid t, Dict.get mgr.session_timeouts sid = some t → t < now →
        Dict.get (mgr.cleanup_expired_sessions now).1.sessions sid = none
        ∧ Dict.get (mgr.cleanup_expired_sessions now).1.session_timeouts sid
            = none)
    ∧ (∀ sid t, Dict.get mgr.session_timeouts sid = some t → ¬ t < now →
        Dict.get (mgr.cleanup_expired_sessions now).1.sessions sid
          = Dict.get mgr.sessions sid
        ∧ Dict.get (mgr.cleanup_expired_sessions now).1.session_timeouts sid
            = some t)
    ∧ (∀ sid, Dict.get mgr.session_timeouts sid = none →
        Dict.get (mgr.cleanup_expired_sessions now).1.sessions sid
          = Dict.get mgr.sessions sid
        ∧ Dict.get (mgr.cleanup_expired_sessions now).1.session_timeouts sid
            = none)
    ∧ (mgr.cleanup_expired_sessions now).2 = specDeletedCount mgr now := by
  obtain ⟨hnds, hndt, hcov⟩ := hwf
  have hgetS : ∀ sid, Dict.get (mgr.cleanup_expired_sessions now).1.sessions sid
      = (Dict.get mgr.sessions sid).filter
          (fun _ => decide (sid ∉ expiredIds mgr now)) := by
    intro sid
    rw [cleanup_sessions_eq, Dict.get_filter _ _ hnds]
  have hgetT : ∀ sid,
      Dict.get (mgr.cleanup_expired_sessions now).1.session_timeouts sid
        = (Dict.get mgr.session_timeouts sid).filter
            (fun _ => decide (sid ∉ expiredIds mgr now)) := by
    intro sid
    rw [cleanup_timeouts_eq, Dict.get_filter _ _ hndt]
  refine ⟨?_, ?_, ?_, ?_⟩
  · intro sid t hget hlt
    have hmemE : sid ∈ expiredIds mgr now := by
      rw [mem_expiredIds_iff mgr now sid hndt]
      simp [hasExpiredTimeout, hget, hlt]
    rw [hgetS, hgetT, hget]
    constructor
    · cases Dict.get mgr.sessions sid <;> simp [Option.filter, hmemE]
    · simp [Option.filter, hmemE]
  · intro sid t hget hnlt
    have hmemE : sid ∉ expiredIds mgr now := by
      rw [mem_expiredIds_iff mgr now sid hndt]
      simp [hasExpiredTimeout, hget, hnlt]
    rw [hgetS, hgetT, hget]
    constructor
    · cases Dict.get mgr.sessions sid <;> simp [Option.filter, hmemE]
    · simp [Option.filter, hmemE]
  · intro sid hget
    have hmemE : sid ∉ expiredIds mgr now := by
      rw [mem_expiredIds_iff mgr now sid hndt]
      simp [hasExpiredTimeout, hget]
    rw [hgetS, hgetT, hget]
    constructor
    · cases Dict.get mgr.sessions sid <;> simp [Option.filter, hmemE]
    · simp [Option.filter]
  · have hcount : (mgr.cleanup_expired_sessions now).2
        = (expiredIds mgr now).length := rfl
    have hEnd : (expiredIds mgr now).Nodup := by
      have hsubl : List.Sublist (expiredIds mgr now)
          (Dict.keys mgr.session_timeouts) :=
        (List.filter_sublist _).map Prod.fst
      exact hndt.sublist hsubl
    have hsubE : ∀ k ∈ expiredIds mgr now, k ∈ Dict.keys mgr.sessions := by
      intro k hk
      have hexp := (mem_expiredIds_iff mgr now k hndt).mp hk
      cases hget : Dict.get mgr.session_timeouts k with
      | none => simp [hasExpiredTimeout, hget] at hexp
      | some t =>
        have hmem : (k, t) ∈ mgr.session_timeouts := Dict.mem_of_get_eq_some hget
        have hsome := hcov (k, t) hmem
        by_contra hnk
        rw [(Dict.get_eq_none_iff _ _).mpr hnk] at hsome
        simp at hsome
    have hcongr : mgr.sessions.filter (fun p => hasExpiredTimeout mgr now p.1)
        = mgr.sessions.filter (fun p => decide (p.1 ∈ expiredIds mgr now)) := by
      apply List.filter_congr
      intro p _
      have h1 := mem_expiredIds_iff mgr now p.1 hndt
      cases hc : hasExpiredTimeout mgr now p.1 with
      | true => exact (decide_eq_true (h1.mpr hc)).symm
      | false =>
        have hnm : ¬ p.1 ∈ expiredIds mgr now := by
          intro hm
          have := h1.mp hm
          rw [hc] at this
          cases this
        exact (decide_eq_false hnm).symm
    rw [hcount]
    unfold specDeletedCount
    rw [hcongr, length_filter_mem_keys _ _ hEnd hnds hsubE]

/-- Witness for C4: the sweep of `mgrSweepEx` at instant 100 removes the
expired `"s1"` from both dicts, keeps the live `"s2"` with its timeout,
leaves an absent id absent, and reports exactly the one deleted
session. -/
theorem C4_cleanup_deletes_exactly_expired_witness :
    (Dict.get (mgrSweepEx.cleanup_expired_sessions 100).1.sessions "s1" = none
      ∧ Dict.get (mgrSweepEx.cleanup_expired_sessions 100).1.session_timeouts "s1"
          = none)
    ∧ (Dict.get (mgrSweepEx.cleanup_expired_sessions 100).1.sessions "s2"
        = Dict.get mgrSweepEx.sessions "s2"
      ∧ Dict.get (mgrSweepEx.cleanup_expired_sessions 100).1.session_timeouts "s2"
          = some 200)
    ∧ (Dict.get (mgrSweepEx.cleanup_expired_sessions 100).1.sessions "zzz"
        = Dict.get mgrSweepEx.sessions "zzz")
    ∧ (mgrSweepEx.cleanup_expired_sessions 100).2 = specDeletedCount mgrSweepEx 100 :=
  ⟨(C4_cleanup_deletes_exactly_expired mgrSweepEx 100 ⟨by decide, by decide, by decide⟩).1 "s1" 10
      rfl (by decide),
   (C4_cleanup_deletes_exactly_expired mgrSweepEx 100 ⟨by decide, by decide, by decide⟩).2.1 "s2" 200
      rfl (by decide),
   ((C4_cleanup_deletes_exactly_expired mgrSweepEx 100 ⟨by decide, by decide, by decide⟩).2.2.1 "zzz"
      rfl).1,
   (C4_cleanup_deletes_exactly_expired mgrSweepEx 100 ⟨by decide, by decide, by decide⟩).2.2.2⟩

/-- Membership in the keys of a `Dict.set`. -/
theorem Dict.mem_keys_set {V : Type} (m : Dict V) (k : String) (v : V)
    (k' : String) :
    k' ∈ Dict.keys (Dict.set m k v) ↔ k' = k ∨ k' ∈ Dict.keys m := by
  induction m with
  | nil => simp [Dict.set, Dict.keys]
  | cons p m ih =>
    by_cases h : p.1 = k
    · subst h
      simp [Dict.set, Dict.keys, List.mem_cons]
    · simp only [Dict.set, if_neg h, Dict.keys, List.map_cons, List.mem_cons]
      simp only [Dict.keys] at ih
      rw [ih]
      tauto

/-- Assignment `Dict.set` preserves distinctness of keys. -/
theorem Dict.nodup_keys_set {V : Type} (m : Dict V) (k : String) (v : V)
    (hnd : (Dict.keys m).Nodup) : (Dict.keys (Dict.set m k v)).Nodup := by
  induction m with
  | nil => simp [Dict.set, Dict.keys]
  | cons p m ih =>
    simp only [Dict.keys, List.map_cons, List.nodup_cons] at hnd
    by_cases h : p.1 = k
    · subst h
      simp only [Dict.set, eq_self_iff_true, if_true, Dict.keys,
        List.map_cons, List.nodup_cons]
      exact hnd
    · simp only [Dict.set, if_neg h, Dict.keys, List.map_cons,
        List.nodup_cons]
      refine ⟨?_, ih hnd.2⟩
      intro hc
      rcases (Dict.mem_keys_set m k v p.1).mp hc with hc | hc
      · exact h hc
      · exact hnd.1 hc

/-- An entry of `Dict.set` is the assigned pair or an original entry. -/
theorem Dict.mem_set {V : Type} {m : Dict V} {k : String} {v : V}
    {p : String × V} (h : p ∈ Dict.set m k v) : p = (k, v) ∨ p ∈ m := by
  induction m with
  | nil => simpa [Dict.set] using h
  | cons q m ih =>
    by_cases hq : q.1 = k
    · rw [Dict.set, if_pos hq] at h
      rcases List.mem_cons.mp h with h | h
      · exact Or.inl h
      · exact Or.inr (List.mem_cons_of_mem _ h)
    · rw [Dict.set, if_neg hq] at h
      rcases List.mem_cons.mp h with h | h
      · exact Or.inr (h ▸ List.mem_cons_self _ _)
      · rcases ih h with h | h
        · exact Or.inl h
        · exact Or.inr (List.mem_cons_of_mem _ h)

/-- Removal `Dict.pop` preserves distinctness of keys. -/
theorem Dict.nodup_keys_pop {V : Type} (m : Dict V) (k : String)
    (hnd : (Dict.keys m).Nodup) : (Dict.keys (Dict.pop m k)).Nodup := by
  have hsubl : List.Sublist (Dict.keys (Dict.pop m k)) (Dict.keys m) := by
    rw [Dict.pop_eq_filter]
    exact (List.filter_sublist _).map Prod.fst
  exact hnd.sublist hsubl

/-- Assignment `Dict.set` preserves presence of every key. -/
theorem Dict.isSome_get_set {V : Type} (m : Dict V) (k k' : String) (v : V)
    (h : (Dict.get m k').isSome) : (Dict.get (Dict.set m k v) k').isSome := by
  by_cases hk : k' = k
  · subst hk
    rw [Dict.get_set_self]
    rfl
  · rwa [Dict.get_set_ne _ _ _ _ hk]

/-- The empty registry is well-formed. -/
theorem SessionManager.wf_init : SessionManager.init.wf := by
  refine ⟨List.nodup_nil, List.nodup_nil, ?_⟩
  intro p hp
  cases hp

/-- Creation `create_session` preserves registry well-formedness. -/
theorem SessionManager.wf_create (st : Settings) (mgr : SessionManager)
    (uid : String) (sd : Dict String) (now : Int) (h : mgr.wf) :
    (mgr.create_session st uid sd now).1.wf := by
  obtain ⟨hnds, hndt, hcov⟩ := h
  refine ⟨Dict.nodup_keys_set _ _ _ hnds, Dict.nodup_keys_set _ _ _ hndt, ?_⟩
  intro p hp
  rcases Dict.mem_set hp with hp | hp
  · rw [hp]
    simp [SessionManager.create_session, Dict.get_set_self]
  · by_cases hk : p.1 = "session_" ++ uid ++ "_" ++ toString now
    · rw [SessionManager.create_session]
      rw [hk, Dict.get_set_self]
      rfl
    · rw [SessionManager.create_session]
      rw [Dict.get_set_ne _ _ _ _ hk]
      exact hcov p hp

/-- Update `update_session` preserves registry well-formedness. -/
theorem SessionManager.wf_update (mgr : SessionManager) (sid : String)
    (upd : Dict String) (now : Int) (h : mgr.wf) :
    (mgr.update_session sid upd now).1.wf := by
  obtain ⟨hnds, hndt, hcov⟩ := h
  cases hget : Dict.get mgr.sessions sid with
  | none =>
    simp only [SessionManager.update_session, hget]
    exact ⟨hnds, hndt, hcov⟩
  | some s =>
    simp only [SessionManager.update_session, hget]
    refine ⟨Dict.nodup_keys_set _ _ _ hnds, hndt, ?_⟩
    intro p hp
    exact Dict.isSome_get_set _ _ _ _ (hcov p hp)

/-- Deletion `delete_session` preserves registry well-formedness. -/
theorem SessionManager.wf_delete (mgr : SessionManager) (sid : String)
    (h : mgr.wf) : (mgr.delete_session sid).1.wf := by
  obtain ⟨hnds, hndt, hcov⟩ := h
  refine ⟨Dict.nodup_keys_pop _ _ hnds, Dict.nodup_keys_pop _ _ hndt, ?_⟩
  intro p hp
  have hp' : p ∈ mgr.session_timeouts ∧ p.1 ≠ sid := by
    rw [SessionManager.delete_session] at hp
    simp only at hp
    rw [Dict.pop_eq_filter] at hp
    have := List.mem_filter.mp hp
    simpa using this
  rw [SessionManager.delete_session]
  simp only
  rw [Dict.get_pop_ne _ _ _ hp'.2]
  exact hcov p hp'.1

/-- Sweep `cleanup_expired_sessions` preserves registry well-formedness. -/
theorem SessionManager.wf_cleanup (mgr : SessionManager) (now : Int)
    (h : mgr.wf) : (mgr.cleanup_expired_sessions now).1.wf := by
  have hgen : ∀ (E : List String) (m : SessionManager), m.wf →
      (E.foldl (fun m sid => (SessionManager.delete_session m sid).1) m).wf := by
    intro E
    induction E with
    | nil => intro m hm; exact hm
    | cons k E ih =>
      intro m hm
      rw [List.foldl_cons]
      exact ih _ (SessionManager.wf_delete m k hm)
  exact hgen _ mgr h
